import Mathlib

/-!
Verification of the running-average metric tracker (`src/utils.py`):
`AverageTracker` (a named weighted-average accumulator) and
`AverageTrackerGroup` (an insertion-ordered mapping from names to trackers).

Modelling conventions:
* Python numerics (`float` values and weights) are modelled as exact
  rationals `ℚ`; the claims are about exact arithmetic identities.
* Python's `ZeroDivisionError` (raised by `self.avg = self.sum / self.count`
  when `count` is zero) is modelled by `Except`: the `error` payload carries
  the object state at the moment the exception propagates, since the
  preceding field assignments have already happened.
* The `OrderedDict` storage is modelled as an insertion-ordered association
  list `List (String × AverageTracker)`: assignment to an existing key keeps
  its position, assignment to a fresh key appends at the end.
* Generators (`items`) are modelled as the finite list they yield.
-/

/-- State of a Python `AverageTracker` object: `name`, `val` (latest value),
`sum` (cumulative weighted total), `count` (cumulative weight total),
`avg` (stored average). -/
structure AverageTracker where
  name : String
  val : ℚ
  sum : ℚ
  count : ℚ
  avg : ℚ
deriving Repr, DecidableEq

namespace AverageTracker

/-- `reset(self)`: `val = sum = count = avg = 0`, `name` untouched. -/
def reset (t : AverageTracker) : AverageTracker :=
  { t with val := 0, sum := 0, count := 0, avg := 0 }

/-- `__init__(self, name)`: stores `name` and calls `reset`. -/
def init (name : String) : AverageTracker :=
  reset { name := name, val := 0, sum := 0, count := 0, avg := 0 }

/-- `update(self, value, n=1)`:
`self.val = value; self.sum += value * n; self.count += n;
self.avg = self.sum / self.count`.
The division raises `ZeroDivisionError` when the (already updated) `count`
is zero; the `error` payload is the state at that point: `val`, `sum` and
`count` are mutated, the assignment to `avg` never executed. The default
weight `n=1` is supplied at call sites. -/
def update (t : AverageTracker) (value : ℚ) (n : ℚ) : Except AverageTracker AverageTracker :=
  if t.count + n = 0 then
    Except.error { t with val := value, sum := t.sum + value * n, count := t.count + n }
  else
    Except.ok { t with val := value, sum := t.sum + value * n, count := t.count + n,
                       avg := (t.sum + value * n) / (t.count + n) }

/-- `item(self)`: returns the current `avg`. -/
def item (t : AverageTracker) : ℚ :=
  t.avg

/-- `__call__(self)`: returns `self.item()`. -/
def call (t : AverageTracker) : ℚ :=
  t.item

end AverageTracker

/-- Whether a tracker `update` call raised (propagated an exception). -/
def raised : Except AverageTracker AverageTracker → Bool
  | .ok _ => false
  | .error _ => true

/-- The tracker state after an `update` call, whether it returned normally
or raised: the `error` payload already is the state at the fault. -/
def errState : Except AverageTracker AverageTracker → AverageTracker
  | .ok t => t
  | .error t => t

/-- Round a rational to the nearest integer, ties to even — the rounding
used by Python's fixed-point `format` on the exact value. -/
def roundHalfEven (q : ℚ) : ℤ :=
  if q - ⌊q⌋ < 1 / 2 then ⌊q⌋
  else if q - ⌊q⌋ > 1 / 2 then ⌊q⌋ + 1
  else if ⌊q⌋ % 2 = 0 then ⌊q⌋ else ⌊q⌋ + 1

/-- Left-pad a string with zeros to the given length. -/
def padZeros (s : String) (len : Nat) : String :=
  if s.length ≥ len then s
  else String.mk (List.replicate (len - s.length) '0') ++ s

/-- `'\x7b:.4f\x7d'.format(q)`: fixed-point rendering with 4 digits after
the decimal point. -/
def fmtRat4 (q : ℚ) : String :=
  (if roundHalfEven (q * 10000) < 0 then "-" else "") ++
    toString ((roundHalfEven (q * 10000)).natAbs / 10000) ++ "." ++
    padZeros (toString ((roundHalfEven (q * 10000)).natAbs % 10000)) 4

/-- `__str__(self)`: `'\x7bname\x7d \x7bval:.4f\x7d (\x7bavg:.4f\x7d)'`
formatted with the tracker's fields. -/
def AverageTracker.str (t : AverageTracker) : String :=
  t.name ++ " " ++ fmtRat4 t.val ++ " (" ++ fmtRat4 t.avg ++ ")"

/-- A value appearing in the dictionary passed to the group `update`: either
a plain numeric value, or an iterable unpacked into positional arguments
(`self._storage[name].update(*value)`). -/
inductive UpdValue where
  | scalar (v : ℚ)
  | iter (args : List ℚ)
deriving Repr, DecidableEq

/-- Outcome of dispatching one dictionary value to a tracker's `update`. -/
inductive UpdResult where
  | ok (t : AverageTracker)
  | zeroDiv (t : AverageTracker)
  | badArity
deriving Repr, DecidableEq

/-- Dispatch of one dictionary value in the group `update` loop:
a non-iterable value gives `update(value)` (default `n=1`); an iterable
gives `update(*value)`, so a 1-element iterable uses the default weight,
a 2-element iterable supplies the explicit weight, and any other arity
raises `TypeError` before the tracker is touched. -/
def applyUpdValue (t : AverageTracker) : UpdValue → UpdResult
  | .scalar v =>
      match t.update v 1 with
      | .ok t' => .ok t'
      | .error t' => .zeroDiv t'
  | .iter [v] =>
      match t.update v 1 with
      | .ok t' => .ok t'
      | .error t' => .zeroDiv t'
  | .iter [v, n] =>
      match t.update v n with
      | .ok t' => .ok t'
      | .error t' => .zeroDiv t'
  | .iter _ => .badArity

/-- State of a Python `AverageTrackerGroup` object: the `_storage` ordered
dictionary, as an insertion-ordered association list. -/
structure AverageTrackerGroup where
  storage : List (String × AverageTracker)
deriving Repr, DecidableEq

/-- Lookup in the ordered dictionary (`storage[name]`, `None` = `KeyError`). -/
def lookupName : List (String × AverageTracker) → String → Option AverageTracker
  | [], _ => none
  | (k, t) :: rest, name => if k = name then some t else lookupName rest name

/-- Assignment `storage[name] = t` in the ordered dictionary: an existing
key keeps its position, a fresh key is appended at the end. -/
def setName : List (String × AverageTracker) → String → AverageTracker → List (String × AverageTracker)
  | [], name, t => [(name, t)]
  | (k, u) :: rest, name, t =>
      if k = name then (k, t) :: rest else (k, u) :: setName rest name t

/-- The `if name not in self._storage: self._storage[name] =
AverageTracker(name)` step of the group `update` loop: a missing name gets
a fresh zero tracker appended, a present name leaves storage unchanged. -/
def ensureName (s : List (String × AverageTracker)) (name : String) :
    List (String × AverageTracker) :=
  if name ∈ s.map Prod.fst then s
  else s ++ [(name, AverageTracker.init name)]

namespace AverageTrackerGroup

/-- `reset(self)`: `self._storage = OrderedDict()`. -/
def reset (_g : AverageTrackerGroup) : AverageTrackerGroup :=
  ⟨[]⟩

/-- `__init__(self)`: calls `reset`. -/
def init : AverageTrackerGroup :=
  reset ⟨[]⟩

/-- The keys of the storage, in insertion order. -/
def keys (g : AverageTrackerGroup) : List String :=
  g.storage.map Prod.fst

/-- `update(self, data)`: for each `(name, value)` of `data` in order,
create a fresh zero tracker when `name not in self._storage`, then apply
the value to `self._storage[name]` (the `getD` default is unreachable:
`ensureName` guarantees the lookup succeeds). A `ZeroDivisionError` or
`TypeError` propagates immediately; the `error` payload is the storage at
that point (entries already processed keep their new state, and a tracker
freshly created for the failing entry remains in storage). -/
def update (g : AverageTrackerGroup) :
    List (String × UpdValue) → Except AverageTrackerGroup AverageTrackerGroup
  | [] => Except.ok g
  | (name, value) :: rest =>
      match applyUpdValue
          ((lookupName (ensureName g.storage name) name).getD (AverageTracker.init name))
          value with
      | .ok t' => update ⟨setName (ensureName g.storage name) name t'⟩ rest
      | .zeroDiv t' => Except.error ⟨setName (ensureName g.storage name) name t'⟩
      | .badArity => Except.error ⟨ensureName g.storage name⟩

/-- The group state after an `update` call, whether it returned normally or
raised: the `error` payload already is the storage at the fault. -/
def updResult : Except AverageTrackerGroup AverageTrackerGroup → AverageTrackerGroup
  | .ok g => g
  | .error g => g

/-- `__getitem__(self, item)`: `self._storage[item].item()`. A missing key
raises `KeyError` (`Except.error ()`); the returned group is the storage
after the read — dictionary subscripting never inserts. -/
def getItem (g : AverageTrackerGroup) (name : String) :
    Except Unit ℚ × AverageTrackerGroup :=
  match lookupName g.storage name with
  | some t => (Except.ok t.item, g)
  | none => (Except.error (), g)

/-- `__getattr__(self, item)`: `self._storage[item].item()`, identical body
to `__getitem__`. -/
def getAttr (g : AverageTrackerGroup) (name : String) :
    Except Unit ℚ × AverageTrackerGroup :=
  match lookupName g.storage name with
  | some t => (Except.ok t.item, g)
  | none => (Except.error (), g)

/-- `items(self)`: the generator yielding `(key, val.item())` over the
storage in insertion order, modelled as the list it produces. -/
def items (g : AverageTrackerGroup) : List (String × ℚ) :=
  g.storage.map (fun p => (p.1, p.2.item))

/-- `__str__(self)`: space-joined renderings of the stored trackers. -/
def str (g : AverageTrackerGroup) : String :=
  String.intercalate " " (g.storage.map (fun p => p.2.str))

/-- `__repr__(self)`: the fixed label followed by the joined renderings. -/
def reprStr (g : AverageTrackerGroup) : String :=
  "Metric Group: " ++ str g

end AverageTrackerGroup

/-- All storage entries hold a tracker whose `name` equals the key. -/
def namesConsistent (s : List (String × AverageTracker)) : Bool :=
  s.all (fun p => p.2.name = p.1)

/-- Group states reachable by any sequence of construction, `update`
(normal or raising) and `reset` calls. -/
inductive Reachable : AverageTrackerGroup → Prop where
  | init : Reachable AverageTrackerGroup.init
  | reset : ∀ g, Reachable g → Reachable g.reset
  | updateOk : ∀ g data g', Reachable g →
      g.update data = Except.ok g' → Reachable g'
  | updateErr : ∀ g data g', Reachable g →
      g.update data = Except.error g' → Reachable g'

/-- The weighted total `Σ v_i * n_i` of a sequence of update arguments. -/
def weightedSum (l : List (ℚ × ℚ)) : ℚ :=
  (l.map (fun p => p.1 * p.2)).sum

/-- The weight total `Σ n_i` of a sequence of update arguments. -/
def totalWeight (l : List (ℚ × ℚ)) : ℚ :=
  (l.map Prod.snd).sum

/-- A sequence of `update(v_i, n_i)` calls on a tracker, stopping at the
first `ZeroDivisionError`. -/
def applyUpdates (t : AverageTracker) : List (ℚ × ℚ) → Except AverageTracker AverageTracker
  | [] => Except.ok t
  | (v, n) :: rest =>
      match t.update v n with
      | .ok t' => applyUpdates t' rest
      | .error t' => Except.error t'

/-- First-appearance list of the names of `data` not already among `ks`. -/
def newKeys (ks : List String) : List (String × UpdValue) → List String
  | [] => []
  | (name, _) :: rest =>
      if name ∈ ks then newKeys ks rest
      else name :: newKeys (ks ++ [name]) rest

/-! ## Basic lemmas about the tracker operations -/

namespace AverageTracker

theorem update_of_ne (t : AverageTracker) (v n : ℚ) (h : t.count + n ≠ 0) :
    t.update v n = Except.ok { t with val := v, sum := t.sum + v * n, count := t.count + n,
                                      avg := (t.sum + v * n) / (t.count + n) } := by
  simp [update, h]

theorem update_of_eq (t : AverageTracker) (v n : ℚ) (h : t.count + n = 0) :
    t.update v n = Except.error { t with val := v, sum := t.sum + v * n, count := t.count + n } := by
  simp [update, h]

theorem update_ok_inv {t t' : AverageTracker} {v n : ℚ} (h : t.update v n = Except.ok t') :
    t'.name = t.name ∧ t'.val = v ∧ t'.sum = t.sum + v * n ∧ t'.count = t.count + n ∧
      t'.count ≠ 0 ∧ t'.avg = t'.sum / t'.count := by
  unfold update at h
  split at h
  · exact absurd h (by simp)
  · rename_i hc
    rw [Except.ok.injEq] at h
    subst h
    exact ⟨rfl, rfl, rfl, rfl, hc, rfl⟩

theorem update_error_inv {t t' : AverageTracker} {v n : ℚ}
    (h : t.update v n = Except.error t') :
    t'.name = t.name ∧ t'.val = v ∧ t'.sum = t.sum + v * n ∧ t'.count = t.count + n ∧
      t'.count = 0 ∧ t'.avg = t.avg := by
  unfold update at h
  split at h
  · rename_i hc
    rw [Except.error.injEq] at h
    subst h
    exact ⟨rfl, rfl, rfl, rfl, hc, rfl⟩
  · exact absurd h (by simp)

end AverageTracker

theorem applyUpdates_ok_inv :
    ∀ (upds : List (ℚ × ℚ)) (t t' : AverageTracker),
      applyUpdates t upds = Except.ok t' →
      t'.name = t.name ∧ t'.sum = t.sum + weightedSum upds ∧
        t'.count = t.count + totalWeight upds
  | [], t, t', h => by
      simp [applyUpdates] at h
      subst h
      simp [weightedSum, totalWeight]
  | (v, n) :: rest, t, t', h => by
      unfold applyUpdates at h
      split at h
      · rename_i u hu
        obtain ⟨h1, h2, h3⟩ := applyUpdates_ok_inv rest u t' h
        obtain ⟨g1, _, g3, g4, _, _⟩ := AverageTracker.update_ok_inv hu
        refine ⟨h1.trans g1, ?_, ?_⟩
        · rw [h2, g3]; simp [weightedSum]; ring
        · rw [h3, g4]; simp [totalWeight]; ring
      · exact absurd h (by simp)

theorem applyUpdates_append (xs ys : List (ℚ × ℚ)) :
    ∀ t : AverageTracker,
      applyUpdates t (xs ++ ys) =
        match applyUpdates t xs with
        | .ok u => applyUpdates u ys
        | .error e => Except.error e := by
  induction xs with
  | nil => intro t; simp [applyUpdates]
  | cons p rest ih =>
      intro t
      obtain ⟨v, n⟩ := p
      cases h : t.update v n with
      | ok u =>
          simp only [List.cons_append, applyUpdates, h]
          exact ih u
      | error e =>
          simp only [List.cons_append, applyUpdates, h]

/-! ## Lemmas about the ordered-dictionary operations -/

theorem lookupName_eq_none :
    ∀ {s : List (String × AverageTracker)} {name : String},
      name ∉ s.map Prod.fst → lookupName s name = none
  | [], _, _ => rfl
  | (k, t) :: rest, name, h => by
      have hk : k ≠ name := by
        intro hkn; exact h (by simp [hkn])
      have hr : name ∉ rest.map Prod.fst := by
        intro hm; exact h (by simp [hm])
      simp [lookupName, hk, lookupName_eq_none hr]

theorem lookupName_mem_keys :
    ∀ {s : List (String × AverageTracker)} {name : String} {t : AverageTracker},
      lookupName s name = some t → name ∈ s.map Prod.fst
  | (k, u) :: rest, name, t, h => by
      by_cases hk : k = name
      · simp [hk]
      · simp only [lookupName, hk, if_false] at h
        simp [lookupName_mem_keys h]

theorem lookupName_mem :
    ∀ {s : List (String × AverageTracker)} {name : String} {t : AverageTracker},
      lookupName s name = some t → (name, t) ∈ s
  | (k, u) :: rest, name, t, h => by
      by_cases hk : k = name
      · simp only [lookupName, hk, if_true] at h
        cases h
        subst hk
        simp
      · simp only [lookupName, hk, if_false] at h
        simp [lookupName_mem h]

theorem lookupName_append_self {s : List (String × AverageTracker)} {name : String}
    (h : name ∉ s.map Prod.fst) (t : AverageTracker) :
    lookupName (s ++ [(name, t)]) name = some t := by
  induction s with
  | nil => simp [lookupName]
  | cons p rest ih =>
      have hk : p.1 ≠ name := by
        intro hkn; exact h (by simp [hkn])
      have hr : name ∉ rest.map Prod.fst := by
        intro hm; exact h (by simp [hm])
      simpa [lookupName, hk] using ih hr

theorem setName_append_self {s : List (String × AverageTracker)} {name : String}
    (h : name ∉ s.map Prod.fst) (t0 t : AverageTracker) :
    setName (s ++ [(name, t0)]) name t = s ++ [(name, t)] := by
  induction s with
  | nil => simp [setName]
  | cons p rest ih =>
      have hk : p.1 ≠ name := by
        intro hkn; exact h (by simp [hkn])
      have hr : name ∉ rest.map Prod.fst := by
        intro hm; exact h (by simp [hm])
      simpa [setName, hk] using ih hr

theorem keys_setName_of_mem :
    ∀ {s : List (String × AverageTracker)} {name : String},
      name ∈ s.map Prod.fst → ∀ t : AverageTracker,
        (setName s name t).map Prod.fst = s.map Prod.fst
  | (k, u) :: rest, name, h, t => by
      by_cases hk : k = name
      · simp [setName, hk]
      · have hr : name ∈ rest.map Prod.fst := by
          rcases (by simpa using h) with h1 | h1
          · exact absurd h1.symm hk
          · simpa using h1
        simp [setName, hk, keys_setName_of_mem hr]

theorem mem_of_mem_setName :
    ∀ {s : List (String × AverageTracker)} {name : String} {t : AverageTracker}
      {p : String × AverageTracker},
      p ∈ setName s name t → p = (name, t) ∨ p ∈ s
  | [], name, t, p, h => by
      simp only [setName, List.mem_singleton] at h
      exact Or.inl h
  | (k, u) :: rest, name, t, p, h => by
      by_cases hk : k = name
      · subst hk
        simp only [setName, eq_self_iff_true, if_true, List.mem_cons] at h
        rcases h with h | h
        · exact Or.inl h
        · exact Or.inr (by simp [h])
      · simp only [setName, hk, if_false, List.mem_cons] at h
        rcases h with h | h
        · exact Or.inr (by simp [h])
        · rcases mem_of_mem_setName h with h1 | h1
          · exact Or.inl h1
          · exact Or.inr (by simp [h1])

theorem ensureName_of_mem {s : List (String × AverageTracker)} {name : String}
    (h : name ∈ s.map Prod.fst) : ensureName s name = s :=
  if_pos h

theorem ensureName_of_not_mem {s : List (String × AverageTracker)} {name : String}
    (h : name ∉ s.map Prod.fst) :
    ensureName s name = s ++ [(name, AverageTracker.init name)] :=
  if_neg h

theorem mem_keys_ensureName (s : List (String × AverageTracker)) (name : String) :
    name ∈ (ensureName s name).map Prod.fst := by
  by_cases h : name ∈ s.map Prod.fst
  · rw [ensureName_of_mem h]; exact h
  · rw [ensureName_of_not_mem h]; simp

theorem keys_prefix_ensureName (s : List (String × AverageTracker)) (name : String) :
    s.map Prod.fst <+: (ensureName s name).map Prod.fst := by
  by_cases h : name ∈ s.map Prod.fst
  · rw [ensureName_of_mem h]
  · rw [ensureName_of_not_mem h]
    exact ⟨[name], by simp⟩

theorem mem_of_mem_ensureName {s : List (String × AverageTracker)} {name : String}
    {p : String × AverageTracker} (h : p ∈ ensureName s name) :
    p ∈ s ∨ p = (name, AverageTracker.init name) := by
  by_cases hm : name ∈ s.map Prod.fst
  · rw [ensureName_of_mem hm] at h
    exact Or.inl h
  · rw [ensureName_of_not_mem hm] at h
    simpa using h

/-! ## Lemmas about the group update loop -/

theorem update_keys_extend :
    ∀ (data : List (String × UpdValue)) (g : AverageTrackerGroup),
      g.keys <+: (AverageTrackerGroup.updResult (g.update data)).keys
  | [], g => by
      simp [AverageTrackerGroup.update, AverageTrackerGroup.updResult]
  | (name, value) :: rest, g => by
      have hpre : g.keys <+: (ensureName g.storage name).map Prod.fst :=
        keys_prefix_ensureName g.storage name
      cases hv : applyUpdValue
          ((lookupName (ensureName g.storage name) name).getD (AverageTracker.init name))
          value with
      | ok t' =>
          have hset : (setName (ensureName g.storage name) name t').map Prod.fst
              = (ensureName g.storage name).map Prod.fst :=
            keys_setName_of_mem (mem_keys_ensureName g.storage name) t'
          have h2 := update_keys_extend rest ⟨setName (ensureName g.storage name) name t'⟩
          simp only [AverageTrackerGroup.update, hv]
          refine List.IsPrefix.trans ?_ h2
          show g.keys <+: (setName (ensureName g.storage name) name t').map Prod.fst
          rw [hset]
          exact hpre
      | zeroDiv t' =>
          have hset : (setName (ensureName g.storage name) name t').map Prod.fst
              = (ensureName g.storage name).map Prod.fst :=
            keys_setName_of_mem (mem_keys_ensureName g.storage name) t'
          simp only [AverageTrackerGroup.update, hv, AverageTrackerGroup.updResult]
          show g.keys <+: (setName (ensureName g.storage name) name t').map Prod.fst
          rw [hset]
          exact hpre
      | badArity =>
          simp only [AverageTrackerGroup.update, hv, AverageTrackerGroup.updResult]
          exact hpre

theorem update_ok_keys :
    ∀ (data : List (String × UpdValue)) (g g' : AverageTrackerGroup),
      g.update data = Except.ok g' → g'.keys = g.keys ++ newKeys g.keys data
  | [], g, g', h => by
      simp only [AverageTrackerGroup.update, Except.ok.injEq] at h
      subst h
      simp [newKeys]
  | (name, value) :: rest, g, g', h => by
      cases hv : applyUpdValue
          ((lookupName (ensureName g.storage name) name).getD (AverageTracker.init name))
          value with
      | ok t' =>
          simp only [AverageTrackerGroup.update, hv] at h
          have ih := update_ok_keys rest ⟨setName (ensureName g.storage name) name t'⟩ g' h
          have hset : (setName (ensureName g.storage name) name t').map Prod.fst
              = (ensureName g.storage name).map Prod.fst :=
            keys_setName_of_mem (mem_keys_ensureName g.storage name) t'
          by_cases hm : name ∈ g.keys
          · have hks : AverageTrackerGroup.keys ⟨setName (ensureName g.storage name) name t'⟩
                = g.keys := by
              show (setName (ensureName g.storage name) name t').map Prod.fst = _
              rw [hset, ensureName_of_mem hm]
              rfl
            rw [ih, hks]
            simp only [newKeys]
            rw [if_pos hm]
          · have hks : AverageTrackerGroup.keys ⟨setName (ensureName g.storage name) name t'⟩
                = g.keys ++ [name] := by
              show (setName (ensureName g.storage name) name t').map Prod.fst = _
              rw [hset, ensureName_of_not_mem hm]
              simp [AverageTrackerGroup.keys]
            rw [ih, hks]
            simp only [newKeys]
            rw [if_neg hm]
            simp
      | zeroDiv t' =>
          simp only [AverageTrackerGroup.update, hv] at h
          exact absurd h (by simp)
      | badArity =>
          simp only [AverageTrackerGroup.update, hv] at h
          exact absurd h (by simp)

theorem items_map_fst (g : AverageTrackerGroup) :
    g.items.map Prod.fst = g.keys := by
  simp [AverageTrackerGroup.items, AverageTrackerGroup.keys, List.map_map, Function.comp]

/-! ## Lemmas about name consistency of the storage -/

theorem applyUpdValue_ok_name {t t' : AverageTracker} {value : UpdValue}
    (h : applyUpdValue t value = UpdResult.ok t') : t'.name = t.name := by
  cases value with
  | scalar v =>
      simp only [applyUpdValue] at h
      cases hu : t.update v 1 with
      | ok u => rw [hu] at h; cases h; exact (AverageTracker.update_ok_inv hu).1
      | error u => rw [hu] at h; cases h
  | iter args =>
      match args with
      | [] => simp [applyUpdValue] at h
      | [v] =>
          simp only [applyUpdValue] at h
          cases hu : t.update v 1 with
          | ok u => rw [hu] at h; cases h; exact (AverageTracker.update_ok_inv hu).1
          | error u => rw [hu] at h; cases h
      | [v, n] =>
          simp only [applyUpdValue] at h
          cases hu : t.update v n with
          | ok u => rw [hu] at h; cases h; exact (AverageTracker.update_ok_inv hu).1
          | error u => rw [hu] at h; cases h
      | _ :: _ :: _ :: _ => simp [applyUpdValue] at h

theorem applyUpdValue_zeroDiv_name {t t' : AverageTracker} {value : UpdValue}
    (h : applyUpdValue t value = UpdResult.zeroDiv t') : t'.name = t.name := by
  cases value with
  | scalar v =>
      simp only [applyUpdValue] at h
      cases hu : t.update v 1 with
      | ok u => rw [hu] at h; cases h
      | error u => rw [hu] at h; cases h; exact (AverageTracker.update_error_inv hu).1
  | iter args =>
      match args with
      | [] => simp [applyUpdValue] at h
      | [v] =>
          simp only [applyUpdValue] at h
          cases hu : t.update v 1 with
          | ok u => rw [hu] at h; cases h
          | error u => rw [hu] at h; cases h; exact (AverageTracker.update_error_inv hu).1
      | [v, n] =>
          simp only [applyUpdValue] at h
          cases hu : t.update v n with
          | ok u => rw [hu] at h; cases h
          | error u => rw [hu] at h; cases h; exact (AverageTracker.update_error_inv hu).1
      | _ :: _ :: _ :: _ => simp [applyUpdValue] at h

theorem namesConsistent_eq_true_iff (s : List (String × AverageTracker)) :
    namesConsistent s = true ↔ ∀ p ∈ s, (p.2 : AverageTracker).name = p.1 := by
  simp [namesConsistent, List.all_eq_true]

theorem namesConsistent_ensureName {s : List (String × AverageTracker)} (name : String)
    (hs : namesConsistent s = true) : namesConsistent (ensureName s name) = true := by
  rw [namesConsistent_eq_true_iff] at hs ⊢
  intro p hp
  rcases mem_of_mem_ensureName hp with h | h
  · exact hs p h
  · subst h
    rfl

theorem namesConsistent_setName {s : List (String × AverageTracker)} {name : String}
    {t : AverageTracker} (hs : namesConsistent s = true) (ht : t.name = name) :
    namesConsistent (setName s name t) = true := by
  rw [namesConsistent_eq_true_iff] at hs ⊢
  intro p hp
  rcases mem_of_mem_setName hp with h | h
  · subst h
    exact ht
  · exact hs p h

theorem namesConsistent_lookup {s : List (String × AverageTracker)} {name : String}
    {t : AverageTracker} (hs : namesConsistent s = true)
    (h : lookupName s name = some t) : t.name = name := by
  rw [namesConsistent_eq_true_iff] at hs
  exact hs (name, t) (lookupName_mem h)

theorem namesConsistent_update :
    ∀ (data : List (String × UpdValue)) (g : AverageTrackerGroup),
      namesConsistent g.storage = true →
        namesConsistent (AverageTrackerGroup.updResult (g.update data)).storage = true
  | [], g, hg => by simpa [AverageTrackerGroup.update, AverageTrackerGroup.updResult] using hg
  | (name, value) :: rest, g, hg => by
      have hens : namesConsistent (ensureName g.storage name) = true :=
        namesConsistent_ensureName name hg
      have hname : ((lookupName (ensureName g.storage name) name).getD
          (AverageTracker.init name)).name = name := by
        cases hl : lookupName (ensureName g.storage name) name with
        | some t => simpa using namesConsistent_lookup hens hl
        | none => simp [AverageTracker.init, AverageTracker.reset]
      cases hv : applyUpdValue
          ((lookupName (ensureName g.storage name) name).getD (AverageTracker.init name))
          value with
      | ok t' =>
          have ht' : t'.name = name := (applyUpdValue_ok_name hv).trans hname
          simp only [AverageTrackerGroup.update, hv]
          exact namesConsistent_update rest ⟨setName (ensureName g.storage name) name t'⟩
            (namesConsistent_setName hens ht')
      | zeroDiv t' =>
          have ht' : t'.name = name := (applyUpdValue_zeroDiv_name hv).trans hname
          simp only [AverageTrackerGroup.update, hv, AverageTrackerGroup.updResult]
          exact namesConsistent_setName hens ht'
      | badArity =>
          simp only [AverageTrackerGroup.update, hv, AverageTrackerGroup.updResult]
          exact hens

/-! ## Lemmas for the rendering claims -/

theorem floor_61728_div_5 : ⌊(61728 / 5 : ℚ)⌋ = 12345 := by
  rw [Int.floor_eq_iff]
  constructor <;> norm_num

theorem roundHalfEven_val : roundHalfEven ((123456 / 100000 : ℚ) * 10000) = 12346 := by
  have hq : ((123456 : ℚ) / 100000) * 10000 = 61728 / 5 := by norm_num
  rw [roundHalfEven, hq, floor_61728_div_5]
  norm_num

theorem fmtRat4_val : fmtRat4 (123456 / 100000 : ℚ) = "1.2346" := by
  rw [fmtRat4, roundHalfEven_val]
  decide

theorem roundHalfEven_two : roundHalfEven ((2 : ℚ) * 10000) = 20000 := by
  have hf : ⌊((2 : ℚ) * 10000)⌋ = 20000 := by norm_num
  rw [roundHalfEven, hf]
  norm_num

theorem fmtRat4_two : fmtRat4 (2 : ℚ) = "2.0000" := by
  rw [fmtRat4, roundHalfEven_two]
  decide

theorem str_concrete (nm : String) (s c : ℚ) :
    AverageTracker.str ⟨nm, 123456 / 100000, s, c, 2⟩ = nm ++ " 1.2346 (2.0000)" := by
  show (nm ++ " " ++ fmtRat4 (123456 / 100000 : ℚ) ++ " (" ++ fmtRat4 (2 : ℚ) ++ ")") = _
  rw [fmtRat4_val, fmtRat4_two]
  simp only [String.append_assoc]
  rfl

/-! ## Claim theorems -/

/-- C1: for every sequence of `update(v_i, n_i)` calls on a freshly
constructed tracker, after each call (the completed calls of a run, with
the final call allowed to be the one that raises) `sum` equals the
cumulative `Σ v_i * n_i`, `count` equals the cumulative `Σ n_i`, `val`
equals the value argument of the most recent update (not multiplied by
`n`), and `avg = sum / count` whenever `count > 0`. -/
theorem tracker_update_running_average (name : String) (upds : List (ℚ × ℚ)) (v n : ℚ)
    (u : AverageTracker)
    (h : applyUpdates (AverageTracker.init name) upds = Except.ok u) :
    (errState (u.update v n)).val = v ∧
      (errState (u.update v n)).sum = weightedSum (upds ++ [(v, n)]) ∧
      (errState (u.update v n)).count = totalWeight (upds ++ [(v, n)]) ∧
      (0 < (errState (u.update v n)).count →
        (errState (u.update v n)).avg
          = (errState (u.update v n)).sum / (errState (u.update v n)).count) := by
  obtain ⟨hname, hsum, hcount⟩ := applyUpdates_ok_inv upds _ u h
  have hinit_sum : (AverageTracker.init name).sum = 0 := rfl
  have hinit_count : (AverageTracker.init name).count = 0 := rfl
  have hws : weightedSum (upds ++ [(v, n)]) = weightedSum upds + v * n := by
    simp [weightedSum]
  have htw : totalWeight (upds ++ [(v, n)]) = totalWeight upds + n := by
    simp [totalWeight]
  cases hu : u.update v n with
  | ok t' =>
      obtain ⟨_, hval, hs, hc, hne, havg⟩ := AverageTracker.update_ok_inv hu
      refine ⟨by simpa [errState] using hval, ?_, ?_, ?_⟩
      · simp only [errState]
        rw [hs, hsum, hinit_sum, hws]
        ring
      · simp only [errState]
        rw [hc, hcount, hinit_count, htw]
        ring
      · intro _
        simpa [errState] using havg
  | error t' =>
      obtain ⟨_, hval, hs, hc, hzero, havg⟩ := AverageTracker.update_error_inv hu
      refine ⟨by simpa [errState] using hval, ?_, ?_, ?_⟩
      · simp only [errState]
        rw [hs, hsum, hinit_sum, hws]
        ring
      · simp only [errState]
        rw [hc, hcount, hinit_count, htw]
        ring
      · intro hpos
        simp only [errState] at hpos
        rw [hzero] at hpos
        exact absurd hpos (by norm_num)

/-- Witness for C1 at the concrete run `update(2, 3); update(8, 1)` on a
fresh tracker named `x`. -/
theorem tracker_update_running_average_witness :
    (errState (AverageTracker.update ⟨"x", 2, 6, 3, 2⟩ 8 1)).val = 8 ∧
      (errState (AverageTracker.update ⟨"x", 2, 6, 3, 2⟩ 8 1)).sum
        = weightedSum ([(2, 3)] ++ [(8, 1)]) ∧
      (errState (AverageTracker.update ⟨"x", 2, 6, 3, 2⟩ 8 1)).count
        = totalWeight ([(2, 3)] ++ [(8, 1)]) ∧
      (0 < (errState (AverageTracker.update ⟨"x", 2, 6, 3, 2⟩ 8 1)).count →
        (errState (AverageTracker.update ⟨"x", 2, 6, 3, 2⟩ 8 1)).avg
          = (errState (AverageTracker.update ⟨"x", 2, 6, 3, 2⟩ 8 1)).sum
            / (errState (AverageTracker.update ⟨"x", 2, 6, 3, 2⟩ 8 1)).count) :=
  tracker_update_running_average "x" [(2, 3)] 8 1 ⟨"x", 2, 6, 3, 2⟩ (by
    norm_num [applyUpdates, AverageTracker.update, AverageTracker.init,
      AverageTracker.reset])

/-- C2 counterexample: on a fresh tracker, `update(5, 0)` leaves the
cumulative count at 0 and is NOT a defined no-op: the division is reached
with a zero divisor and a `ZeroDivisionError` propagates (the call raises
instead of returning), refuting the claim at this concrete input. -/
theorem tracker_zero_weight_noop_cex :
    (AverageTracker.init "x").update 5 0 = Except.error ⟨"x", 5, 0, 0, 0⟩ ∧
      raised ((AverageTracker.init "x").update 5 0) = true := by
  constructor
  · rw [AverageTracker.update_of_eq _ _ _
      (by norm_num [AverageTracker.init, AverageTracker.reset])]
    norm_num [AverageTracker.init, AverageTracker.reset]
  · rw [AverageTracker.update_of_eq _ _ _
      (by norm_num [AverageTracker.init, AverageTracker.reset])]
    rfl

/-- C2 (amended): an update call with a weight `n` that leaves the
cumulative count at 0 raises a division-by-zero runtime fault rather than
being a no-op; the assignment to `avg` never executes, so `avg` keeps its
prior value (0 on a fresh tracker). -/
theorem tracker_zero_weight_raises (t : AverageTracker) (v n : ℚ)
    (h : t.count + n = 0) :
    raised (t.update v n) = true ∧ (errState (t.update v n)).avg = t.avg := by
  rw [AverageTracker.update_of_eq t v n h]
  exact ⟨rfl, rfl⟩

/-- Witness for the amended C2 at the concrete input `update(5, 0)` on a
fresh tracker. -/
theorem tracker_zero_weight_raises_witness :
    raised ((AverageTracker.init "x").update 5 0) = true ∧
      (errState ((AverageTracker.init "x").update 5 0)).avg
        = (AverageTracker.init "x").avg :=
  tracker_zero_weight_raises (AverageTracker.init "x") 5 0
    (by norm_num [AverageTracker.init, AverageTracker.reset])

/-- C3: in a group `update`, a name not yet in storage first gets a fresh
zero-initialized tracker appended and the update is then applied to it; a
plain numeric value is dispatched as `update(value)` with the default
weight 1, and a two-element iterable as `update(value, n)` with the
explicit weight (for a name already in storage, the stored tracker is
updated in place, with the same dispatch). -/
theorem group_update_create_and_dispatch (g : AverageTrackerGroup) (name : String)
    (q w : ℚ) (rest : List (String × UpdValue)) :
    (name ∉ g.keys →
      g.update ((name, UpdValue.scalar q) :: rest) =
        (match (AverageTracker.init name).update q 1 with
         | .ok t' => AverageTrackerGroup.update ⟨g.storage ++ [(name, t')]⟩ rest
         | .error t' => Except.error ⟨g.storage ++ [(name, t')]⟩)) ∧
    (name ∉ g.keys →
      g.update ((name, UpdValue.iter [q, w]) :: rest) =
        (match (AverageTracker.init name).update q w with
         | .ok t' => AverageTrackerGroup.update ⟨g.storage ++ [(name, t')]⟩ rest
         | .error t' => Except.error ⟨g.storage ++ [(name, t')]⟩)) ∧
    (∀ t : AverageTracker, lookupName g.storage name = some t →
      g.update ((name, UpdValue.scalar q) :: rest) =
        (match t.update q 1 with
         | .ok t' => AverageTrackerGroup.update ⟨setName g.storage name t'⟩ rest
         | .error t' => Except.error ⟨setName g.storage name t'⟩)) ∧
    (∀ t : AverageTracker, lookupName g.storage name = some t →
      g.update ((name, UpdValue.iter [q, w]) :: rest) =
        (match t.update q w with
         | .ok t' => AverageTrackerGroup.update ⟨setName g.storage name t'⟩ rest
         | .error t' => Except.error ⟨setName g.storage name t'⟩)) := by
  refine ⟨fun h => ?_, fun h => ?_, fun t ht => ?_, fun t ht => ?_⟩
  · rw [AverageTrackerGroup.update,
        ensureName_of_not_mem h, lookupName_append_self h, Option.getD_some]
    simp only [applyUpdValue, setName_append_self h]
    cases (AverageTracker.init name).update q 1 <;> rfl
  · rw [AverageTrackerGroup.update,
        ensureName_of_not_mem h, lookupName_append_self h, Option.getD_some]
    simp only [applyUpdValue, setName_append_self h]
    cases (AverageTracker.init name).update q w <;> rfl
  · rw [AverageTrackerGroup.update,
        ensureName_of_mem (lookupName_mem_keys ht), ht, Option.getD_some]
    simp only [applyUpdValue]
    cases t.update q 1 <;> rfl
  · rw [AverageTrackerGroup.update,
        ensureName_of_mem (lookupName_mem_keys ht), ht, Option.getD_some]
    simp only [applyUpdValue]
    cases t.update q w <;> rfl

/-- Witness for C3: `update({"a": (2.0, 3)})` on an empty group creates the
tracker `a` and applies `update(2, 3)` to it, giving average 2. -/
theorem group_update_create_and_dispatch_witness :
    AverageTrackerGroup.init.update [("a", UpdValue.iter [2, 3])] =
      Except.ok ⟨[("a", ⟨"a", 2, 6, 3, 2⟩)]⟩ := by
  have h := (group_update_create_and_dispatch AverageTrackerGroup.init "a" 2 3 []).2.1
    (by simp [AverageTrackerGroup.keys, AverageTrackerGroup.init, AverageTrackerGroup.reset])
  rw [h, AverageTracker.update_of_ne _ _ _
    (by norm_num [AverageTracker.init, AverageTracker.reset])]
  show AverageTrackerGroup.update _ [] = _
  rw [AverageTrackerGroup.update]
  congr 1
  norm_num [AverageTrackerGroup.init, AverageTrackerGroup.reset,
    AverageTracker.init, AverageTracker.reset]

/-- C4: reading a name that is not in the storage of a group, by indexing
or attribute-style lookup, fails with a `KeyError` and leaves the storage
unchanged (the failed read creates no entry). -/
theorem group_read_missing_fails (g : AverageTrackerGroup) (name : String)
    (h : name ∉ g.keys) :
    (g.getItem name).1 = Except.error () ∧ (g.getItem name).2 = g ∧
      (g.getAttr name).1 = Except.error () ∧ (g.getAttr name).2 = g := by
  have hl : lookupName g.storage name = none := lookupName_eq_none h
  simp [AverageTrackerGroup.getItem, AverageTrackerGroup.getAttr, hl]

/-- Witness for C4: reading the unknown name `b` from a group holding only
`a` fails and leaves the group unchanged. -/
theorem group_read_missing_fails_witness :
    ((⟨[("a", AverageTracker.init "a")]⟩ : AverageTrackerGroup).getItem "b").1
        = Except.error () ∧
      ((⟨[("a", AverageTracker.init "a")]⟩ : AverageTrackerGroup).getItem "b").2
        = ⟨[("a", AverageTracker.init "a")]⟩ ∧
      ((⟨[("a", AverageTracker.init "a")]⟩ : AverageTrackerGroup).getAttr "b").1
        = Except.error () ∧
      ((⟨[("a", AverageTracker.init "a")]⟩ : AverageTrackerGroup).getAttr "b").2
        = ⟨[("a", AverageTracker.init "a")]⟩ :=
  group_read_missing_fails ⟨[("a", AverageTracker.init "a")]⟩ "b"
    (by simp [AverageTrackerGroup.keys])

/-- C5: after any history, `reset()` returns the tracker to the zero state
(`val = sum = count = avg = 0`) with the name retained — the reset state
equals a freshly constructed tracker of the same name, so every subsequent
read (`item`, `__call__`, the fields) returns the zero state until the
next update. -/
theorem tracker_reset_zero_state (t : AverageTracker) :
    t.reset = AverageTracker.init t.name ∧ t.reset.name = t.name ∧ t.reset.val = 0 ∧
      t.reset.sum = 0 ∧ t.reset.count = 0 ∧ t.reset.avg = 0 ∧ t.reset.item = 0 ∧
      t.reset.call = 0 :=
  ⟨rfl, rfl, rfl, rfl, rfl, rfl, rfl, rfl⟩

/-- C6: group `reset()` empties the storage mapping entirely, and no other
operation removes a name: any `update` (whether it returns or raises)
extends the key sequence, keeping the existing keys as a prefix, and the
failed or successful reads return the group unchanged. -/
theorem group_reset_forgets_names (g : AverageTrackerGroup) :
    g.reset.storage = [] ∧
      (∀ data, g.keys <+: (AverageTrackerGroup.updResult (g.update data)).keys) ∧
      (∀ name, (g.getItem name).2 = g ∧ (g.getAttr name).2 = g) := by
  refine ⟨rfl, fun data => update_keys_extend data g, fun name => ?_⟩
  cases hl : lookupName g.storage name <;>
    simp [AverageTrackerGroup.getItem, AverageTrackerGroup.getAttr, hl]

/-- C7 counterexample: an update carrying only an existing name (`a`,
already in storage) changes the `(name, avg)` pairs produced by `items()`
even though no new name was introduced — the sequences before and after
differ, refuting "identical across calls unless updated with a new name"
at this concrete input. -/
theorem group_items_unchanged_cex :
    AverageTrackerGroup.update ⟨[("a", ⟨"a", 2, 2, 1, 2⟩)]⟩ [("a", UpdValue.scalar 4)]
        = Except.ok ⟨[("a", ⟨"a", 4, 6, 2, 3⟩)]⟩ ∧
      AverageTrackerGroup.keys ⟨[("a", ⟨"a", 4, 6, 2, 3⟩)]⟩
        = AverageTrackerGroup.keys ⟨[("a", ⟨"a", 2, 2, 1, 2⟩)]⟩ ∧
      AverageTrackerGroup.items ⟨[("a", ⟨"a", 4, 6, 2, 3⟩)]⟩
        ≠ AverageTrackerGroup.items ⟨[("a", ⟨"a", 2, 2, 1, 2⟩)]⟩ := by
  refine ⟨?_, rfl, ?_⟩
  · simp [AverageTrackerGroup.update, ensureName, lookupName, setName,
      applyUpdValue, AverageTracker.update]
    norm_num
  · intro hco
    simp [AverageTrackerGroup.items, AverageTracker.item] at hco

/-- C7 (amended): `items()` is a pure finite view of the current state, so
repeated calls with no update in between produce identical sequences; a
successful update may change the average components of existing names in
place, and appends the new names of the data, in first-appearance order,
at the end of the name sequence. -/
theorem group_items_first_insertion_order (g : AverageTrackerGroup)
    (data : List (String × UpdValue)) (g' : AverageTrackerGroup)
    (h : g.update data = Except.ok g') :
    g'.items.map Prod.fst =
      g.items.map Prod.fst ++ newKeys (g.items.map Prod.fst) data := by
  rw [items_map_fst, items_map_fst, update_ok_keys data g g' h]

/-- Witness for the amended C7: updating `a` (existing) and `b` (new)
appends `b` at the end of the name sequence. -/
theorem group_items_first_insertion_order_witness :
    List.map Prod.fst
        (AverageTrackerGroup.items ⟨[("a", ⟨"a", 4, 6, 2, 3⟩), ("b", ⟨"b", 1, 1, 1, 1⟩)]⟩) =
      List.map Prod.fst (AverageTrackerGroup.items ⟨[("a", ⟨"a", 2, 2, 1, 2⟩)]⟩) ++
        newKeys (List.map Prod.fst (AverageTrackerGroup.items ⟨[("a", ⟨"a", 2, 2, 1, 2⟩)]⟩))
          [("a", UpdValue.scalar 4), ("b", UpdValue.scalar 1)] :=
  group_items_first_insertion_order ⟨[("a", ⟨"a", 2, 2, 1, 2⟩)]⟩
    [("a", UpdValue.scalar 4), ("b", UpdValue.scalar 1)]
    ⟨[("a", ⟨"a", 4, 6, 2, 3⟩), ("b", ⟨"b", 1, 1, 1, 1⟩)]⟩
    (by
      simp [AverageTrackerGroup.update, ensureName, lookupName, setName,
        applyUpdValue, AverageTracker.update, AverageTracker.init, AverageTracker.reset]
      norm_num)

/-- C8: in every reachable group state (any sequence of construction,
`update` — returning or raising — and `reset`), every key of the storage
maps to a tracker whose `name` field equals that key. -/
theorem group_storage_names_invariant (g : AverageTrackerGroup) (h : Reachable g) :
    namesConsistent g.storage = true := by
  induction h with
  | init => rfl
  | reset g hg ih => rfl
  | updateOk g data g' hg heq ih =>
      have hc := namesConsistent_update data g ih
      rw [heq] at hc
      exact hc
  | updateErr g data g' hg heq ih =>
      have hc := namesConsistent_update data g ih
      rw [heq] at hc
      exact hc

/-- Witness for C8 at the concrete reachable state obtained by
`update({"a": 2})` on a fresh group. -/
theorem group_storage_names_invariant_witness :
    namesConsistent
        (AverageTrackerGroup.storage ⟨[("a", ⟨"a", 2, 2, 1, 2⟩)]⟩) = true :=
  group_storage_names_invariant ⟨[("a", ⟨"a", 2, 2, 1, 2⟩)]⟩
    (Reachable.updateOk AverageTrackerGroup.init [("a", UpdValue.scalar 2)]
      ⟨[("a", ⟨"a", 2, 2, 1, 2⟩)]⟩ Reachable.init
      (by
        simp [AverageTrackerGroup.update, AverageTrackerGroup.init,
          AverageTrackerGroup.reset, ensureName, lookupName, setName, applyUpdValue,
          AverageTracker.update, AverageTracker.init, AverageTracker.reset]))

/-- C9: the human-readable rendering of a tracker is the string
`<name> <val> (<avg>)` with `val` and `avg` formatted to 4 decimal places;
in particular a tracker with `val = 1.23456` and `avg = 2.0` renders its
value part as `1.2346` and its average part as `2.0000`, whatever its
name, `sum` and `count` are. -/
theorem tracker_str_rendering :
    (∀ t : AverageTracker,
        t.str = t.name ++ " " ++ fmtRat4 t.val ++ " (" ++ fmtRat4 t.avg ++ ")") ∧
      fmtRat4 (123456 / 100000 : ℚ) = "1.2346" ∧ fmtRat4 (2 : ℚ) = "2.0000" ∧
      (∀ (nm : String) (s c : ℚ),
        AverageTracker.str ⟨nm, 123456 / 100000, s, c, 2⟩ = nm ++ " 1.2346 (2.0000)") :=
  ⟨fun _ => rfl, fmtRat4_val, fmtRat4_two, str_concrete⟩

/-- C10: on any tracker whose current count equals `-n` (for example a
fresh tracker and `n = 0`), `update(value, n)` raises a division-by-zero
error, and at the point of failure the state is already partially mutated:
`val` is set to `value`, `sum` is increased by `value * n`, `count` is
increased by `n`, while `avg` still has its prior value — a failed update
is not atomic. -/
theorem tracker_failed_update_partial_mutation (t : AverageTracker) (v n : ℚ)
    (h : t.count + n = 0) :
    t.update v n =
      Except.error { t with val := v, sum := t.sum + v * n, count := t.count + n } ∧
      ({ t with val := v, sum := t.sum + v * n, count := t.count + n } : AverageTracker).avg
        = t.avg :=
  ⟨AverageTracker.update_of_eq t v n h, rfl⟩

/-- Witness for C10 at the concrete input `update(5, 0)` on a fresh
tracker. -/
theorem tracker_failed_update_partial_mutation_witness :
    (AverageTracker.init "x").update 5 0 =
      Except.error { (AverageTracker.init "x") with
                     val := 5,
                     sum := (AverageTracker.init "x").sum + 5 * 0,
                     count := (AverageTracker.init "x").count + 0 } ∧
      ({ (AverageTracker.init "x") with
         val := 5,
         sum := (AverageTracker.init "x").sum + 5 * 0,
         count := (AverageTracker.init "x").count + 0 } : AverageTracker).avg
        = (AverageTracker.init "x").avg :=
  tracker_failed_update_partial_mutation (AverageTracker.init "x") 5 0
    (by norm_num [AverageTracker.init, AverageTracker.reset])
